import Mathlib

/-!
Shallow embedding of the rustls-liboqs key-exchange adapter (src/kem.rs and
src/swap.rs) and proofs about it.

The external OpenSSL/oqs-provider engine is modelled as a structure of opaque
fallible operations (`Engine`); key and context handles are plain naturals.
Each adapter operation is a chain of engine calls mirroring the Rust source:
the chain stops at the first failing call, every call made is recorded in a
trace, and Rust panics (slice `split_at` out of bounds, usize underflow,
`Option::unwrap` on `None`, the `unreachable` branch) appear as an explicit
third outcome.  Byte buffers are lists of naturals.
-/

/-- Byte strings (`Vec<u8>` / `&[u8]`) are lists of naturals. -/
abbrev Bytes := List Nat

/-- Result of running a piece of Rust code: a value, a `rustls::Error::General`
message, or a panic/abort. -/
inductive Outcome (α : Type) where
  | ok (a : α)
  | err (e : String)
  | panic
deriving DecidableEq

/-- A computation's outcome together with the trace of engine calls it made,
in order. -/
abbrev Kx (α : Type) : Type := Outcome α × List String

/-- Sequencing: on success continue (the traces concatenate); an error or a
panic stops the chain, so no engine call after the first failure runs. -/
def andThen (x : Kx α) (f : α → Kx β) : Kx β :=
  match x with
  | (Outcome.ok a, t) => ((f a).1, t ++ (f a).2)
  | (Outcome.err e, t) => (Outcome.err e, t)
  | (Outcome.panic, t) => (Outcome.panic, t)

/-- One engine call: records its label in the trace. -/
def ecall (label : String) (r : Except String α) : Kx α :=
  match r with
  | Except.ok a => (Outcome.ok a, [label])
  | Except.error e => (Outcome.err e, [label])

/-- Rust's `.map_err(|e| Error::General(format!("<p>{e}")))` on a whole chain. -/
def wrapErr (p : String) (x : Kx α) : Kx α :=
  match x with
  | (Outcome.err e, t) => (Outcome.err (p ++ e), t)
  | r => r

/-- Rust's `.map(f)` on a result chain. -/
def mapOk (f : α → β) (x : Kx α) : Kx β :=
  match x with
  | (Outcome.ok a, t) => (Outcome.ok (f a), t)
  | (Outcome.err e, t) => (Outcome.err e, t)
  | (Outcome.panic, t) => (Outcome.panic, t)

/-- A successfully produced value, no engine call made. -/
def kxPure (a : α) : Kx α := (Outcome.ok a, [])

/-- A Rust panic (slice-bound violation, usize underflow, `unreachable`). -/
def kxPanic : Kx α := (Outcome.panic, [])

/-- The wire identifiers of key-exchange groups used by this crate
(`rustls::NamedGroup`). -/
inductive NamedGroup where
  | X25519
  | MLKEM768
  | X25519MLKEM768
  | other (code : Nat)
deriving DecidableEq

/-- `KxGroup` of src/kem.rs: a named group plus the OpenSSL algorithm name. -/
structure KxGroup where
  named_group : NamedGroup
  algorithm_name : String
deriving DecidableEq

/-- The `KeyExchange` session of src/kem.rs produced by `KxGroup::start`. -/
structure KeyExchange where
  priv_key : Nat
  pub_key : Bytes
  mlkem : KxGroup
  classical_pub_key : Option Bytes
deriving DecidableEq

/-- `rustls::crypto::CompletedKeyExchange` (the secret is its raw bytes). -/
structure CompletedKeyExchange where
  group : NamedGroup
  pub_key : Bytes
  secret : Bytes
deriving DecidableEq

/-- The engine-id constant `openssl::pkey::Id::X25519` (its numeric NID). -/
def idX25519 : Nat := 1034

/-- The external OpenSSL + oqs-provider engine, as the exact set of fallible
operations src/kem.rs invokes.  Handles (contexts, keys) are naturals; every
operation may fail with a diagnostic string.  The adapter is verified for an
arbitrary engine; concrete engines below instantiate it for witnesses. -/
structure Engine where
  new_from_name : String → Except String Nat
  keygen_init : Nat → Except String Unit
  keygen : Nat → Except String Nat
  get_octet_string_param : Nat → String → Except String Bytes
  from_encoded_public_key : Bytes → String → Except String Nat
  pkey_ctx_new : Nat → Except String Nat
  encapsulate_init : Nat → Except String Unit
  encapsulate_to_vec : Nat → Except String (Bytes × Bytes)
  decapsulate_init : Nat → Except String Unit
  decapsulate_to_vec : Nat → Bytes → Except String Bytes
  public_key_from_raw_bytes : Bytes → Nat → Except String Nat
  private_key_from_raw_bytes : Bytes → Nat → Except String Nat
  deriver_new : Nat → Except String Nat
  deriver_set_peer : Nat → Nat → Except String Unit
  derive_to_vec : Nat → Except String Bytes

namespace Kem

/-- The constant `MLKEM768` of src/kem.rs. -/
def MLKEM768 : KxGroup :=
  { named_group := NamedGroup.MLKEM768, algorithm_name := ("mlkem768\x00") }

/-- The constant `X25519MLKEM768` of src/kem.rs. -/
def X25519MLKEM768 : KxGroup :=
  { named_group := NamedGroup.X25519MLKEM768, algorithm_name := ("X25519MLKEM768\x00") }

end Kem

/-- `KxGroup::start` (src/kem.rs lines 47-74): keygen, export the encoded
public key, and for the hybrid group also export the classical public part;
any engine failure is wrapped into one generic error. -/
def KxGroup.start (E : Engine) (g : KxGroup) : Kx KeyExchange :=
  wrapErr ("OpenSSL keygen error: ") (
    andThen (ecall ("new_from_name") (E.new_from_name g.algorithm_name)) (fun pctx =>
    andThen (ecall ("keygen_init") (E.keygen_init pctx)) (fun _ =>
    andThen (ecall ("keygen") (E.keygen pctx)) (fun priv_key =>
    andThen (ecall ("get_octet_string_param encoded-pub-key")
        (E.get_octet_string_param priv_key ("encoded-pub-key"))) (fun pub_key =>
    if g.named_group = NamedGroup.X25519MLKEM768 then
      andThen (ecall ("get_octet_string_param hybrid_classical_pub")
          (E.get_octet_string_param priv_key ("hybrid_classical_pub"))) (fun cpk =>
        kxPure { priv_key, pub_key, mlkem := g, classical_pub_key := some cpk })
    else
      kxPure { priv_key, pub_key, mlkem := g, classical_pub_key := none })))))

/-- `KxGroup::start_and_complete` (src/kem.rs lines 88-104): decode the peer
public key, encapsulate against it; any engine failure is wrapped into one
generic error. -/
def KxGroup.start_and_complete (E : Engine) (g : KxGroup) (peer_pub_key : Bytes) :
    Kx CompletedKeyExchange :=
  wrapErr ("OpenSSL encapsulation error: ") (
    andThen (ecall ("from_encoded_public_key")
        (E.from_encoded_public_key peer_pub_key g.algorithm_name)) (fun key =>
    andThen (ecall ("pkey_ctx_new") (E.pkey_ctx_new key)) (fun ctx =>
    andThen (ecall ("encapsulate_init") (E.encapsulate_init ctx)) (fun _ =>
    andThen (ecall ("encapsulate_to_vec") (E.encapsulate_to_vec ctx)) (fun outsecret =>
    kxPure { group := g.named_group, pub_key := outsecret.1, secret := outsecret.2 })))))

/-- `KeyExchange::complete` (src/kem.rs lines 108-116): decapsulate the peer
ciphertext with the session's private key. -/
def KeyExchange.complete (E : Engine) (kx : KeyExchange) (peer_pub_key : Bytes) : Kx Bytes :=
  wrapErr ("OpenSSL decapsulation error: ") (
    andThen (ecall ("pkey_ctx_new") (E.pkey_ctx_new kx.priv_key)) (fun ctx =>
    andThen (ecall ("decapsulate_init") (E.decapsulate_init ctx)) (fun _ =>
    andThen (ecall ("decapsulate_to_vec") (E.decapsulate_to_vec ctx peer_pub_key)) (fun secret =>
    kxPure secret))))

/-- `KeyExchange::hybrid_component` (src/kem.rs lines 126-135); the
`unwrap()` of `classical_pub_key` panics when the field is `None`. -/
def KeyExchange.hybrid_component (kx : KeyExchange) : Outcome (Option (NamedGroup × Bytes)) :=
  if kx.mlkem.named_group = NamedGroup.X25519MLKEM768 then
    match kx.classical_pub_key with
    | some b => Outcome.ok (some (NamedGroup.X25519, b))
    | none => Outcome.panic
  else
    Outcome.ok none

/-- `KeyExchange::complete_hybrid_component` (src/kem.rs lines 137-162).
The second component is ghost state: the final contents of the extracted
`private_bytes` buffer at the moment the call returns (`none` when the buffer
was never produced).  Mirroring the source, `private_bytes.zeroize()` runs
only after `private_key_from_raw_bytes` has succeeded; on that call's failure
path the `?` operator returns first, so the buffer keeps its original bytes.
On a non-hybrid group the source hits `unreachable` and aborts. -/
def KeyExchange.complete_hybrid_component (E : Engine) (kx : KeyExchange)
    (peer_pub_key : Bytes) : Kx Bytes × Option Bytes :=
  if kx.mlkem.named_group = NamedGroup.X25519MLKEM768 then
    match E.public_key_from_raw_bytes peer_pub_key idX25519 with
    | Except.error e =>
        ((Outcome.err ("OpenSSL error: " ++ e), [("public_key_from_raw_bytes")]), none)
    | Except.ok peer_key =>
      match E.get_octet_string_param kx.priv_key ("hybrid_classical_priv") with
      | Except.error e =>
          ((Outcome.err ("OpenSSL error: " ++ e),
            [("public_key_from_raw_bytes"), ("get_octet_string_param hybrid_classical_priv")]),
           none)
      | Except.ok private_bytes =>
        match E.private_key_from_raw_bytes private_bytes idX25519 with
        | Except.error e =>
            ((Outcome.err ("OpenSSL error: " ++ e),
              [("public_key_from_raw_bytes"), ("get_octet_string_param hybrid_classical_priv"),
               ("private_key_from_raw_bytes")]),
             some private_bytes)
        | Except.ok priv_key =>
          let zeroized : Option Bytes := some (List.replicate private_bytes.length 0)
          match E.deriver_new priv_key with
          | Except.error e =>
              ((Outcome.err ("OpenSSL error: " ++ e),
                [("public_key_from_raw_bytes"), ("get_octet_string_param hybrid_classical_priv"),
                 ("private_key_from_raw_bytes"), ("deriver_new")]),
               zeroized)
          | Except.ok d =>
            match E.deriver_set_peer d peer_key with
            | Except.error e =>
                ((Outcome.err ("OpenSSL error: " ++ e),
                  [("public_key_from_raw_bytes"), ("get_octet_string_param hybrid_classical_priv"),
                   ("private_key_from_raw_bytes"), ("deriver_new"), ("deriver_set_peer")]),
                 zeroized)
            | Except.ok _ =>
              match E.derive_to_vec d with
              | Except.error e =>
                  ((Outcome.err ("OpenSSL error: " ++ e),
                    [("public_key_from_raw_bytes"), ("get_octet_string_param hybrid_classical_priv"),
                     ("private_key_from_raw_bytes"), ("deriver_new"), ("deriver_set_peer"),
                     ("derive_to_vec")]),
                   zeroized)
              | Except.ok secret =>
                  ((Outcome.ok secret,
                    [("public_key_from_raw_bytes"), ("get_octet_string_param hybrid_classical_priv"),
                     ("private_key_from_raw_bytes"), ("deriver_new"), ("deriver_set_peer"),
                     ("derive_to_vec")]),
                   zeroized)
  else
    ((Outcome.panic, []), none)

/-- The legacy forward reorder (src/swap.rs lines 33-36 and 63-66): move the
first `n` bytes (the classical segment, in the engine's native order) to the
end of the buffer. -/
def moveClassicalToEnd (n : Nat) (b : Bytes) : Bytes := b.drop n ++ b.take n

/-- The legacy reverse reorder (src/swap.rs lines 55-59 and 78-83): move the
last `n` bytes (the classical segment, in wire order) to the front. -/
def moveClassicalToFront (n : Nat) (b : Bytes) : Bytes :=
  b.drop (b.length - n) ++ b.take (b.length - n)

/-- The legacy secret transform (src/swap.rs lines 68-71 and 86-91): split at
the midpoint and swap the two halves. -/
def swapSecretHalves (b : Bytes) : Bytes :=
  b.drop (b.length / 2) ++ b.take (b.length / 2)

/-- `ReversingKeyExchange` of src/swap.rs: the legacy layout shim around a
`KxGroup`. -/
structure ReversingKeyExchange where
  inner : KxGroup
  classical_len : Nat
deriving DecidableEq

/-- `ReversingKeyExchangeActive` of src/swap.rs. -/
structure ReversingKeyExchangeActive where
  inner : KeyExchange
  pub_key : Bytes
  kx_group : ReversingKeyExchange
deriving DecidableEq

namespace Swap

/-- The constant `X25519MLKEM768` of src/swap.rs (legacy-layout shim,
classical length 32). -/
def X25519MLKEM768 : ReversingKeyExchange :=
  { inner := { named_group := NamedGroup.X25519MLKEM768,
               algorithm_name := ("x25519_mlkem768\x00") },
    classical_len := 32 }

end Swap

/-- `ReversingKeyExchange::start` (src/swap.rs lines 30-43): start the inner
exchange then move the classical part of the public key to the end.
`split_at_mut(classical_len)` panics when the key is shorter than that. -/
def ReversingKeyExchange.start (E : Engine) (r : ReversingKeyExchange) :
    Kx ReversingKeyExchangeActive :=
  andThen (KxGroup.start E r.inner) (fun inner =>
    if r.classical_len ≤ inner.pub_key.length then
      kxPure { inner, pub_key := moveClassicalToEnd r.classical_len inner.pub_key,
               kx_group := r }
    else kxPanic)

/-- `ReversingKeyExchange::start_and_complete` (src/swap.rs lines 51-73):
swap the peer key's segments back to engine order, run the inner exchange,
then reorder the produced ciphertext and swap the secret halves.  The
`key_len - classical_len` split panics when the peer key is shorter than the
classical length, before any engine call. -/
def ReversingKeyExchange.start_and_complete (E : Engine) (r : ReversingKeyExchange)
    (peer_pub_key : Bytes) : Kx CompletedKeyExchange :=
  if r.classical_len ≤ peer_pub_key.length then
    andThen (KxGroup.start_and_complete E r.inner
        (moveClassicalToFront r.classical_len peer_pub_key)) (fun completed =>
      if r.classical_len ≤ completed.pub_key.length then
        kxPure { group := completed.group,
                 pub_key := moveClassicalToEnd r.classical_len completed.pub_key,
                 secret := swapSecretHalves completed.secret }
      else kxPanic)
  else kxPanic

/-- `ReversingKeyExchangeActive::complete` (src/swap.rs lines 77-92): move the
classical part of the peer ciphertext to the front, decapsulate, then swap the
secret halves.  The `key_len - classical_len` split panics when the input is
shorter than the classical length. -/
def ReversingKeyExchangeActive.complete (E : Engine) (a : ReversingKeyExchangeActive)
    (peer_pub_key : Bytes) : Kx Bytes :=
  if a.kx_group.classical_len ≤ peer_pub_key.length then
    mapOk swapSecretHalves
      (KeyExchange.complete E a.inner
        (moveClassicalToFront a.kx_group.classical_len peer_pub_key))
  else kxPanic

/-- `ReversingKeyExchangeActive::group` (src/swap.rs lines 98-100). -/
def ReversingKeyExchangeActive.group (a : ReversingKeyExchangeActive) : NamedGroup :=
  a.inner.mlkem.named_group

/-- The shim does not override `ActiveKeyExchange::hybrid_component`, so the
trait's provided default implementation from the rustls crate applies, and
that default returns `None` for every session. -/
def ReversingKeyExchangeActive.hybrid_component (_ : ReversingKeyExchangeActive) :
    Outcome (Option (NamedGroup × Bytes)) :=
  Outcome.ok none

/-! ### Concrete engines for witnesses and counterexamples -/

/-- A fixed encoded hybrid public key: 32 classical bytes then 4 post-quantum
bytes (engine-native order, classical first). -/
def pk0 : Bytes := List.replicate 32 1 ++ [2, 2, 2, 2]

/-- A fixed hybrid ciphertext: 32 classical bytes then 2 post-quantum bytes. -/
def ct0 : Bytes := List.replicate 32 3 ++ [4, 4]

/-- A fixed shared secret of even length. -/
def s0 : Bytes := [6, 7, 8, 9]

/-- A concrete engine on which every call succeeds: handle 1 is the generated
private key, decoding `pk0` gives handle 2, encapsulation against it yields
`(ct0, s0)` and decapsulating `ct0` with handle 1 recovers `s0`. -/
def testEngine : Engine where
  new_from_name _ := Except.ok 0
  keygen_init _ := Except.ok ()
  keygen _ := Except.ok 1
  get_octet_string_param k p :=
    if k = 1 ∧ p = ("encoded-pub-key") then Except.ok pk0
    else if k = 1 ∧ p = ("hybrid_classical_pub") then Except.ok [9, 9]
    else if k = 1 ∧ p = ("hybrid_classical_priv") then Except.ok [5, 5]
    else Except.error ("no such param")
  from_encoded_public_key b _ := if b = pk0 then Except.ok 2 else Except.error ("decode failed")
  pkey_ctx_new k := Except.ok (100 + k)
  encapsulate_init _ := Except.ok ()
  encapsulate_to_vec c := if c = 102 then Except.ok (ct0, s0) else Except.error ("encap failed")
  decapsulate_init _ := Except.ok ()
  decapsulate_to_vec c b :=
    if c = 101 ∧ b = ct0 then Except.ok s0 else Except.error ("decap failed")
  public_key_from_raw_bytes _ _ := Except.ok 3
  private_key_from_raw_bytes _ _ := Except.ok 4
  deriver_new _ := Except.ok 5
  deriver_set_peer _ _ := Except.ok ()
  derive_to_vec _ := Except.ok [11, 12]

/-- `testEngine` with a failing keypair generation. -/
def failEngine : Engine :=
  { testEngine with new_from_name := fun _ => Except.error ("boom") }

/-- `testEngine` with a failing raw private-key import, the path on which the
source skips the `zeroize()` call. -/
def importFailEngine : Engine :=
  { testEngine with private_key_from_raw_bytes := fun _ _ => Except.error ("import failed") }

/-- A hybrid session as `KxGroup::start` produces it on `testEngine`. -/
def hybridSession : KeyExchange :=
  { priv_key := 1, pub_key := pk0, mlkem := Kem.X25519MLKEM768,
    classical_pub_key := some [9, 9] }

/-- A non-hybrid session as `KxGroup::start` produces it on `testEngine`. -/
def plainSession : KeyExchange :=
  { priv_key := 1, pub_key := pk0, mlkem := Kem.MLKEM768, classical_pub_key := none }

/-- The legacy-shim session as `ReversingKeyExchange::start` produces it on
`testEngine`: the inner session carries the shim's algorithm name and the
outer public key has its classical segment moved to the end. -/
def swapSession : ReversingKeyExchangeActive :=
  { inner := { priv_key := 1, pub_key := pk0, mlkem := Swap.X25519MLKEM768.inner,
               classical_pub_key := some [9, 9] },
    pub_key := moveClassicalToEnd 32 pk0,
    kx_group := Swap.X25519MLKEM768 }

/-- Correctness of the engine's KEM for one keypair, phrased on the exact
call sequences src/kem.rs makes: decapsulating (with the session's private
key) the ciphertext that encapsulation produced against the session's public
key recovers the encapsulated secret. -/
def EngineKemCorrect (E : Engine) (alg : String) (priv : Nat) (pk : Bytes) : Prop :=
  ∀ k c ct s c₂,
    E.from_encoded_public_key pk alg = Except.ok k →
    E.pkey_ctx_new k = Except.ok c →
    E.encapsulate_init c = Except.ok () →
    E.encapsulate_to_vec c = Except.ok (ct, s) →
    E.pkey_ctx_new priv = Except.ok c₂ →
    E.decapsulate_init c₂ = Except.ok () →
    E.decapsulate_to_vec c₂ ct = Except.ok s

/-- Error wrapping inside `KxGroup::start`: whichever engine call fails
first, the result is exactly one generic error carrying that call's
diagnostic, and the recorded call sequence stops there with no call made
twice. -/
def startErrWrap (E : Engine) (g : KxGroup) : Prop :=
  (∀ e, E.new_from_name g.algorithm_name = Except.error e →
    KxGroup.start E g = (Outcome.err ("OpenSSL keygen error: " ++ e),
      [("new_from_name")])) ∧
  (∀ c e, E.new_from_name g.algorithm_name = Except.ok c →
    E.keygen_init c = Except.error e →
    KxGroup.start E g = (Outcome.err ("OpenSSL keygen error: " ++ e),
      [("new_from_name"), ("keygen_init")])) ∧
  (∀ c e, E.new_from_name g.algorithm_name = Except.ok c →
    E.keygen_init c = Except.ok () →
    E.keygen c = Except.error e →
    KxGroup.start E g = (Outcome.err ("OpenSSL keygen error: " ++ e),
      [("new_from_name"), ("keygen_init"), ("keygen")])) ∧
  (∀ c p e, E.new_from_name g.algorithm_name = Except.ok c →
    E.keygen_init c = Except.ok () →
    E.keygen c = Except.ok p →
    E.get_octet_string_param p ("encoded-pub-key") = Except.error e →
    KxGroup.start E g = (Outcome.err ("OpenSSL keygen error: " ++ e),
      [("new_from_name"), ("keygen_init"), ("keygen"),
       ("get_octet_string_param encoded-pub-key")])) ∧
  (∀ c p pk e, E.new_from_name g.algorithm_name = Except.ok c →
    E.keygen_init c = Except.ok () →
    E.keygen c = Except.ok p →
    E.get_octet_string_param p ("encoded-pub-key") = Except.ok pk →
    g.named_group = NamedGroup.X25519MLKEM768 →
    E.get_octet_string_param p ("hybrid_classical_pub") = Except.error e →
    KxGroup.start E g = (Outcome.err ("OpenSSL keygen error: " ++ e),
      [("new_from_name"), ("keygen_init"), ("keygen"),
       ("get_octet_string_param encoded-pub-key"),
       ("get_octet_string_param hybrid_classical_pub")]))

/-- Error wrapping inside `KxGroup::start_and_complete`. -/
def sacErrWrap (E : Engine) (g : KxGroup) (peer : Bytes) : Prop :=
  (∀ e, E.from_encoded_public_key peer g.algorithm_name = Except.error e →
    KxGroup.start_and_complete E g peer = (Outcome.err ("OpenSSL encapsulation error: " ++ e),
      [("from_encoded_public_key")])) ∧
  (∀ k e, E.from_encoded_public_key peer g.algorithm_name = Except.ok k →
    E.pkey_ctx_new k = Except.error e →
    KxGroup.start_and_complete E g peer = (Outcome.err ("OpenSSL encapsulation error: " ++ e),
      [("from_encoded_public_key"), ("pkey_ctx_new")])) ∧
  (∀ k c e, E.from_encoded_public_key peer g.algorithm_name = Except.ok k →
    E.pkey_ctx_new k = Except.ok c →
    E.encapsulate_init c = Except.error e →
    KxGroup.start_and_complete E g peer = (Outcome.err ("OpenSSL encapsulation error: " ++ e),
      [("from_encoded_public_key"), ("pkey_ctx_new"), ("encapsulate_init")])) ∧
  (∀ k c e, E.from_encoded_public_key peer g.algorithm_name = Except.ok k →
    E.pkey_ctx_new k = Except.ok c →
    E.encapsulate_init c = Except.ok () →
    E.encapsulate_to_vec c = Except.error e →
    KxGroup.start_and_complete E g peer = (Outcome.err ("OpenSSL encapsulation error: " ++ e),
      [("from_encoded_public_key"), ("pkey_ctx_new"), ("encapsulate_init"),
       ("encapsulate_to_vec")]))

/-- Error wrapping inside `KeyExchange::complete`. -/
def completeErrWrap (E : Engine) (kx : KeyExchange) (peer : Bytes) : Prop :=
  (∀ e, E.pkey_ctx_new kx.priv_key = Except.error e →
    KeyExchange.complete E kx peer = (Outcome.err ("OpenSSL decapsulation error: " ++ e),
      [("pkey_ctx_new")])) ∧
  (∀ c e, E.pkey_ctx_new kx.priv_key = Except.ok c →
    E.decapsulate_init c = Except.error e →
    KeyExchange.complete E kx peer = (Outcome.err ("OpenSSL decapsulation error: " ++ e),
      [("pkey_ctx_new"), ("decapsulate_init")])) ∧
  (∀ c e, E.pkey_ctx_new kx.priv_key = Except.ok c →
    E.decapsulate_init c = Except.ok () →
    E.decapsulate_to_vec c peer = Except.error e →
    KeyExchange.complete E kx peer = (Outcome.err ("OpenSSL decapsulation error: " ++ e),
      [("pkey_ctx_new"), ("decapsulate_init"), ("decapsulate_to_vec")]))

/-- Error wrapping inside `KeyExchange::complete_hybrid_component` (on the
hybrid group, the only case in which the engine is called at all). -/
def chcErrWrap (E : Engine) (kx : KeyExchange) (peer : Bytes) : Prop :=
  (∀ e, kx.mlkem.named_group = NamedGroup.X25519MLKEM768 →
    E.public_key_from_raw_bytes peer idX25519 = Except.error e →
    (KeyExchange.complete_hybrid_component E kx peer).1
      = (Outcome.err ("OpenSSL error: " ++ e), [("public_key_from_raw_bytes")])) ∧
  (∀ pk e, kx.mlkem.named_group = NamedGroup.X25519MLKEM768 →
    E.public_key_from_raw_bytes peer idX25519 = Except.ok pk →
    E.get_octet_string_param kx.priv_key ("hybrid_classical_priv") = Except.error e →
    (KeyExchange.complete_hybrid_component E kx peer).1
      = (Outcome.err ("OpenSSL error: " ++ e),
        [("public_key_from_raw_bytes"), ("get_octet_string_param hybrid_classical_priv")])) ∧
  (∀ pk pb e, kx.mlkem.named_group = NamedGroup.X25519MLKEM768 →
    E.public_key_from_raw_bytes peer idX25519 = Except.ok pk →
    E.get_octet_string_param kx.priv_key ("hybrid_classical_priv") = Except.ok pb →
    E.private_key_from_raw_bytes pb idX25519 = Except.error e →
    (KeyExchange.complete_hybrid_component E kx peer).1
      = (Outcome.err ("OpenSSL error: " ++ e),
        [("public_key_from_raw_bytes"), ("get_octet_string_param hybrid_classical_priv"),
         ("private_key_from_raw_bytes")])) ∧
  (∀ pk pb sk e, kx.mlkem.named_group = NamedGroup.X25519MLKEM768 →
    E.public_key_from_raw_bytes peer idX25519 = Except.ok pk →
    E.get_octet_string_param kx.priv_key ("hybrid_classical_priv") = Except.ok pb →
    E.private_key_from_raw_bytes pb idX25519 = Except.ok sk →
    E.deriver_new sk = Except.error e →
    (KeyExchange.complete_hybrid_component E kx peer).1
      = (Outcome.err ("OpenSSL error: " ++ e),
        [("public_key_from_raw_bytes"), ("get_octet_string_param hybrid_classical_priv"),
         ("private_key_from_raw_bytes"), ("deriver_new")])) ∧
  (∀ pk pb sk d e, kx.mlkem.named_group = NamedGroup.X25519MLKEM768 →
    E.public_key_from_raw_bytes peer idX25519 = Except.ok pk →
    E.get_octet_string_param kx.priv_key ("hybrid_classical_priv") = Except.ok pb →
    E.private_key_from_raw_bytes pb idX25519 = Except.ok sk →
    E.deriver_new sk = Except.ok d →
    E.deriver_set_peer d pk = Except.error e →
    (KeyExchange.complete_hybrid_component E kx peer).1
      = (Outcome.err ("OpenSSL error: " ++ e),
        [("public_key_from_raw_bytes"), ("get_octet_string_param hybrid_classical_priv"),
         ("private_key_from_raw_bytes"), ("deriver_new"), ("deriver_set_peer")])) ∧
  (∀ pk pb sk d e, kx.mlkem.named_group = NamedGroup.X25519MLKEM768 →
    E.public_key_from_raw_bytes peer idX25519 = Except.ok pk →
    E.get_octet_string_param kx.priv_key ("hybrid_classical_priv") = Except.ok pb →
    E.private_key_from_raw_bytes pb idX25519 = Except.ok sk →
    E.deriver_new sk = Except.ok d →
    E.deriver_set_peer d pk = Except.ok () →
    E.derive_to_vec d = Except.error e →
    (KeyExchange.complete_hybrid_component E kx peer).1
      = (Outcome.err ("OpenSSL error: " ++ e),
        [("public_key_from_raw_bytes"), ("get_octet_string_param hybrid_classical_priv"),
         ("private_key_from_raw_bytes"), ("deriver_new"), ("deriver_set_peer"),
         ("derive_to_vec")]))

/-! ### Reduction lemmas for the result monad -/

@[simp] theorem ecall_ok (n : String) (a : α) : ecall n (Except.ok a) = (Outcome.ok a, [n]) := rfl

@[simp] theorem ecall_error {α : Type} (n : String) (e : String) :
    ecall n (Except.error e : Except String α) = ((Outcome.err e : Outcome α), [n]) := rfl

@[simp] theorem andThen_ok (a : α) (t : List String) (f : α → Kx β) :
    andThen (Outcome.ok a, t) f = ((f a).1, t ++ (f a).2) := rfl

@[simp] theorem andThen_err (e : String) (t : List String) (f : α → Kx β) :
    andThen (Outcome.err e, t) f = (Outcome.err e, t) := rfl

@[simp] theorem andThen_panic (t : List String) (f : α → Kx β) :
    andThen (Outcome.panic, t) f = (Outcome.panic, t) := rfl

@[simp] theorem wrapErr_ok (p : String) (a : α) (t : List String) :
    wrapErr p (Outcome.ok a, t) = (Outcome.ok a, t) := rfl

@[simp] theorem wrapErr_err (p e : String) (t : List String) :
    wrapErr p ((Outcome.err e : Outcome α), t) = (Outcome.err (p ++ e), t) := rfl

@[simp] theorem wrapErr_panic (p : String) (t : List String) :
    wrapErr p ((Outcome.panic : Outcome α), t) = (Outcome.panic, t) := rfl

@[simp] theorem mapOk_ok (f : α → β) (a : α) (t : List String) :
    mapOk f (Outcome.ok a, t) = (Outcome.ok (f a), t) := rfl

@[simp] theorem mapOk_err (f : α → β) (e : String) (t : List String) :
    mapOk f (Outcome.err e, t) = (Outcome.err e, t) := rfl

@[simp] theorem mapOk_panic (f : α → β) (t : List String) :
    mapOk f (Outcome.panic, t) = (Outcome.panic, t) := rfl

@[simp] theorem kxPure_eq (a : α) : kxPure a = (Outcome.ok a, []) := rfl

/-! ### Facts about the byte transforms -/

theorem moveClassicalToEnd_length (n : Nat) (b : Bytes) :
    (moveClassicalToEnd n b).length = b.length := by
  unfold moveClassicalToEnd
  rw [List.length_append, List.length_drop, List.length_take]
  omega

theorem moveClassicalToFront_length (n : Nat) (b : Bytes) :
    (moveClassicalToFront n b).length = b.length := by
  unfold moveClassicalToFront
  rw [List.length_append, List.length_drop, List.length_take]
  omega

theorem swapSecretHalves_length (b : Bytes) :
    (swapSecretHalves b).length = b.length := by
  unfold swapSecretHalves
  rw [List.length_append, List.length_drop, List.length_take]
  omega

/-- Dropping the length of the left part of an append gives the right part. -/
theorem drop_len_append (l₁ l₂ : List α) (n : Nat) (h : l₁.length = n) :
    (l₁ ++ l₂).drop n = l₂ := by
  subst h
  simp

/-- Taking the length of the left part of an append gives the left part. -/
theorem take_len_append (l₁ l₂ : List α) (n : Nat) (h : l₁.length = n) :
    (l₁ ++ l₂).take n = l₁ := by
  subst h
  simp

/-- The reverse reorder undoes the forward reorder on buffers at least
`n` bytes long. -/
theorem moveClassicalToFront_moveClassicalToEnd (n : Nat) (b : Bytes)
    (h : n ≤ b.length) : moveClassicalToFront n (moveClassicalToEnd n b) = b := by
  unfold moveClassicalToFront moveClassicalToEnd
  have hlen : (b.drop n ++ b.take n).length = b.length := by
    rw [List.length_append, List.length_drop, List.length_take]
    omega
  have hdlen : (b.drop n).length = b.length - n := by simp
  rw [hlen, drop_len_append (b.drop n) (b.take n) (b.length - n) (by omega),
      take_len_append (b.drop n) (b.take n) (b.length - n) (by omega),
      List.take_append_drop]

/-- The secret-half swap is an involution on buffers of even length. -/
theorem swapSecretHalves_swapSecretHalves (b : Bytes) (h : b.length % 2 = 0) :
    swapSecretHalves (swapSecretHalves b) = b := by
  unfold swapSecretHalves
  have hd : (b.drop (b.length / 2)).length = b.length / 2 := by
    rw [List.length_drop]
    omega
  have hlen : (b.drop (b.length / 2) ++ b.take (b.length / 2)).length = b.length := by
    rw [List.length_append, List.length_drop, List.length_take]
    omega
  rw [hlen, drop_len_append _ _ (b.length / 2) hd, take_len_append _ _ (b.length / 2) hd,
      List.take_append_drop]

/-- Forward reorder on a buffer whose classical segment leads. -/
theorem moveClassicalToEnd_append (n : Nat) (cl pq : Bytes) (h : cl.length = n) :
    moveClassicalToEnd n (cl ++ pq) = pq ++ cl := by
  unfold moveClassicalToEnd
  rw [drop_len_append cl pq n h, take_len_append cl pq n h]

/-- Reverse reorder on a buffer whose classical segment trails. -/
theorem moveClassicalToFront_append (n : Nat) (pq cl : Bytes) (h : cl.length = n) :
    moveClassicalToFront n (pq ++ cl) = cl ++ pq := by
  unfold moveClassicalToFront
  have hidx : (pq ++ cl).length - n = pq.length := by
    rw [List.length_append]
    omega
  rw [hidx, drop_len_append pq cl pq.length rfl, take_len_append pq cl pq.length rfl]

/-- The secret-half swap exchanges two equally long halves. -/
theorem swapSecretHalves_append (sh1 sh2 : Bytes) (h : sh1.length = sh2.length) :
    swapSecretHalves (sh1 ++ sh2) = sh2 ++ sh1 := by
  unfold swapSecretHalves
  have hidx : (sh1 ++ sh2).length / 2 = sh1.length := by
    rw [List.length_append]
    omega
  rw [hidx, drop_len_append sh1 sh2 sh1.length rfl, take_len_append sh1 sh2 sh1.length rfl]

/-! ### Claims C3, C4, C5, C7 -/

/-- C3 counterexample: the secret-half swap applied twice to the 3-byte buffer
[0, 1, 2] gives [2, 0, 1], not the original buffer, so the claim's clause
"for every byte buffer, applying the secret-half swap twice yields the
original buffer" is false at that input. -/
theorem claim_C3_counterexample :
    swapSecretHalves (swapSecretHalves [0, 1, 2]) ≠ [0, 1, 2] := by decide

/-- C3 (amended): for every buffer of length at least `classical_len`, the
reverse reorder (as in the shim's `complete`) undoes the forward reorder (as
in the shim's `start`); and the secret-half swap is an involution on every
buffer of even length (odd lengths are excluded, as the counterexample
forces). -/
theorem claim_C3_layout_involution :
    (∀ (b : Bytes) (n : Nat), n ≤ b.length →
        moveClassicalToFront n (moveClassicalToEnd n b) = b)
    ∧ (∀ b : Bytes, b.length % 2 = 0 → swapSecretHalves (swapSecretHalves b) = b) :=
  ⟨fun b n h => moveClassicalToFront_moveClassicalToEnd n b h,
   fun b h => swapSecretHalves_swapSecretHalves b h⟩

/-- C3 witness: the amended involution evaluated at concrete buffers. -/
theorem claim_C3_witness :
    moveClassicalToFront 32 (moveClassicalToEnd 32 pk0) = pk0
    ∧ swapSecretHalves (swapSecretHalves s0) = s0 :=
  ⟨claim_C3_layout_involution.1 pk0 32 (by decide),
   claim_C3_layout_involution.2 s0 (by decide)⟩

/-- C4: the legacy shim's `start_and_complete` PANICS (usize underflow in
`key_len - classical_len`, then out-of-bounds `split_at`) on every peer key
shorter than the 32-byte classical length — here the empty key and a 31-byte
key — instead of returning an error value as the claim states; no engine
call is made before the panic. -/
theorem claim_C4_truncated_key_panics :
    (ReversingKeyExchange.start_and_complete testEngine Swap.X25519MLKEM768 []).1
      = Outcome.panic
    ∧ (ReversingKeyExchange.start_and_complete testEngine Swap.X25519MLKEM768
        (List.replicate 31 1)).1 = Outcome.panic
    ∧ (ReversingKeyExchange.start_and_complete testEngine Swap.X25519MLKEM768
        (List.replicate 31 1)).2 = [] := by decide

/-- C5: on the path where importing the extracted raw classical private key
fails, `complete_hybrid_component` returns the wrapped error through the `?`
operator BEFORE the `zeroize()` call runs, so the extracted buffer (here
[5, 5]) still holds its original non-zero bytes when the call returns —
contradicting the claim that the buffer is zeroized on every path. -/
theorem claim_C5_zeroize_skipped_on_import_failure :
    (KeyExchange.complete_hybrid_component importFailEngine hybridSession [7]).2
      = some [5, 5]
    ∧ (KeyExchange.complete_hybrid_component importFailEngine hybridSession [7]).1.1
      = Outcome.err ("OpenSSL error: " ++ "import failed")
    ∧ some ([5, 5] : Bytes) ≠ some (List.replicate 2 0) := by decide

/-- C7 counterexample: with classical length 32 and N = 1, applying the
legacy public-key transform (as in the shim's `start`) twice to
[0x01]*32 ++ [0x02]*1 gives [0x01] ++ [0x02] ++ [0x01]*31, not the original
buffer, so the claim's clause "applying the transform twice to that input
returns the original buffer" is false. -/
theorem claim_C7_counterexample :
    moveClassicalToEnd 32 (moveClassicalToEnd 32
        (List.replicate 32 1 ++ List.replicate 1 2))
      ≠ List.replicate 32 1 ++ List.replicate 1 2 := by decide

/-- C7 (amended): for every N, the legacy forward transform sends
[0x01]*32 ++ [0x02]*N to [0x02]*N ++ [0x01]*32, and applying the forward
transform and then the REVERSE transform (as in the shim's `complete`) —
rather than the forward transform twice, which the counterexample refutes —
returns the original buffer. -/
theorem claim_C7_fixed_vector :
    (∀ N : Nat, moveClassicalToEnd 32 (List.replicate 32 1 ++ List.replicate N 2)
        = List.replicate N 2 ++ List.replicate 32 1)
    ∧ (∀ N : Nat, moveClassicalToFront 32 (moveClassicalToEnd 32
          (List.replicate 32 1 ++ List.replicate N 2))
        = List.replicate 32 1 ++ List.replicate N 2) := by
  constructor
  · intro N
    exact moveClassicalToEnd_append 32 (List.replicate 32 1) (List.replicate N 2) (by simp)
  · intro N
    apply moveClassicalToFront_moveClassicalToEnd
    rw [List.length_append, List.length_replicate, List.length_replicate]
    omega

/-! ### Inversion and evaluation lemmas for the adapter operations -/

/-- What a successful `KxGroup::start` guarantees about the session. -/
theorem start_ok_elim (E : Engine) (g : KxGroup) (kx : KeyExchange) (t : List String)
    (h : KxGroup.start E g = (Outcome.ok kx, t)) :
    kx.mlkem = g
    ∧ (∃ c, E.new_from_name g.algorithm_name = Except.ok c
        ∧ E.keygen_init c = Except.ok ()
        ∧ E.keygen c = Except.ok kx.priv_key)
    ∧ E.get_octet_string_param kx.priv_key ("encoded-pub-key") = Except.ok kx.pub_key
    ∧ ((g.named_group = NamedGroup.X25519MLKEM768
        ∧ ∃ b, E.get_octet_string_param kx.priv_key ("hybrid_classical_pub") = Except.ok b
            ∧ kx.classical_pub_key = some b)
      ∨ (¬ g.named_group = NamedGroup.X25519MLKEM768 ∧ kx.classical_pub_key = none)) := by
  cases h1 : E.new_from_name g.algorithm_name with
  | error e => simp [KxGroup.start, h1, ecall, andThen, wrapErr] at h
  | ok c =>
    cases h2 : E.keygen_init c with
    | error e => simp [KxGroup.start, h1, h2, ecall, andThen, wrapErr] at h
    | ok u =>
      cases h3 : E.keygen c with
      | error e => simp [KxGroup.start, h1, h2, h3, ecall, andThen, wrapErr] at h
      | ok p =>
        cases h4 : E.get_octet_string_param p ("encoded-pub-key") with
        | error e => simp [KxGroup.start, h1, h2, h3, h4, ecall, andThen, wrapErr] at h
        | ok pk =>
          by_cases hg : g.named_group = NamedGroup.X25519MLKEM768
          · cases h5 : E.get_octet_string_param p ("hybrid_classical_pub") with
            | error e =>
              simp [KxGroup.start, h1, h2, h3, h4, h5, hg, ecall, andThen, wrapErr] at h
            | ok b =>
              simp [KxGroup.start, h1, h2, h3, h4, h5, hg, ecall, andThen, wrapErr,
                kxPure] at h
              obtain ⟨hkx, -⟩ := h
              subst hkx
              exact ⟨rfl, ⟨c, rfl, h2, h3⟩, h4, Or.inl ⟨hg, b, h5, rfl⟩⟩
          · simp [KxGroup.start, h1, h2, h3, h4, hg, ecall, andThen, wrapErr, kxPure] at h
            obtain ⟨hkx, -⟩ := h
            subst hkx
            exact ⟨rfl, ⟨c, rfl, h2, h3⟩, h4, Or.inr ⟨hg, rfl⟩⟩

/-- What a successful `KxGroup::start_and_complete` guarantees. -/
theorem start_and_complete_ok_elim (E : Engine) (g : KxGroup)
    (peer : Bytes) (comp : CompletedKeyExchange) (t : List String)
    (h : KxGroup.start_and_complete E g peer = (Outcome.ok comp, t)) :
    ∃ k c, E.from_encoded_public_key peer g.algorithm_name = Except.ok k
      ∧ E.pkey_ctx_new k = Except.ok c
      ∧ E.encapsulate_init c = Except.ok ()
      ∧ E.encapsulate_to_vec c = Except.ok (comp.pub_key, comp.secret)
      ∧ comp.group = g.named_group := by
  cases h1 : E.from_encoded_public_key peer g.algorithm_name with
  | error e => simp [KxGroup.start_and_complete, h1, ecall, andThen, wrapErr] at h
  | ok k =>
    cases h2 : E.pkey_ctx_new k with
    | error e => simp [KxGroup.start_and_complete, h1, h2, ecall, andThen, wrapErr] at h
    | ok c =>
      cases h3 : E.encapsulate_init c with
      | error e =>
        simp [KxGroup.start_and_complete, h1, h2, h3, ecall, andThen, wrapErr] at h
      | ok u =>
        cases h4 : E.encapsulate_to_vec c with
        | error e =>
          simp [KxGroup.start_and_complete, h1, h2, h3, h4, ecall, andThen, wrapErr] at h
        | ok pr =>
          simp [KxGroup.start_and_complete, h1, h2, h3, h4, ecall, andThen, wrapErr,
            kxPure] at h
          obtain ⟨hcomp, -⟩ := h
          subst hcomp
          exact ⟨k, c, rfl, h2, h3, (by rw [h4]), rfl⟩

/-- Forward evaluation of `KeyExchange::complete` when every engine call
succeeds. -/
theorem complete_eval (E : Engine) (kx : KeyExchange) (peer : Bytes) (c : Nat) (s : Bytes)
    (h1 : E.pkey_ctx_new kx.priv_key = Except.ok c)
    (h2 : E.decapsulate_init c = Except.ok ())
    (h3 : E.decapsulate_to_vec c peer = Except.ok s) :
    KeyExchange.complete E kx peer
      = (Outcome.ok s, [("pkey_ctx_new"), ("decapsulate_init"), ("decapsulate_to_vec")]) := by
  simp [KeyExchange.complete, h1, h2, h3, ecall, andThen, wrapErr, kxPure]

/-- What a successful `ReversingKeyExchange::start` guarantees. -/
theorem swap_start_ok_elim (E : Engine) (r : ReversingKeyExchange)
    (a : ReversingKeyExchangeActive) (t : List String)
    (h : ReversingKeyExchange.start E r = (Outcome.ok a, t)) :
    KxGroup.start E r.inner = (Outcome.ok a.inner, t)
    ∧ r.classical_len ≤ a.inner.pub_key.length
    ∧ a.pub_key = moveClassicalToEnd r.classical_len a.inner.pub_key
    ∧ a.kx_group = r := by
  unfold ReversingKeyExchange.start at h
  rcases h0 : KxGroup.start E r.inner with ⟨o, t'⟩
  rw [h0] at h
  cases o with
  | err e => simp [andThen] at h
  | panic => simp [andThen] at h
  | ok kx =>
    by_cases hlen : r.classical_len ≤ kx.pub_key.length
    · rw [andThen_ok] at h
      rw [if_pos hlen] at h
      simp [kxPure] at h
      obtain ⟨ha, ht⟩ := h
      subst ha
      subst ht
      exact ⟨rfl, hlen, rfl, rfl⟩
    · rw [andThen_ok] at h
      rw [if_neg hlen] at h
      simp [kxPanic] at h

/-- What a successful `ReversingKeyExchange::start_and_complete` guarantees. -/
theorem swap_sac_ok_elim (E : Engine) (r : ReversingKeyExchange) (peer : Bytes)
    (comp : CompletedKeyExchange) (t : List String)
    (h : ReversingKeyExchange.start_and_complete E r peer = (Outcome.ok comp, t)) :
    r.classical_len ≤ peer.length
    ∧ ∃ comp₀, KxGroup.start_and_complete E r.inner
          (moveClassicalToFront r.classical_len peer) = (Outcome.ok comp₀, t)
      ∧ r.classical_len ≤ comp₀.pub_key.length
      ∧ comp = { group := comp₀.group,
                 pub_key := moveClassicalToEnd r.classical_len comp₀.pub_key,
                 secret := swapSecretHalves comp₀.secret } := by
  unfold ReversingKeyExchange.start_and_complete at h
  by_cases hp : r.classical_len ≤ peer.length
  · rw [if_pos hp] at h
    rcases h0 : KxGroup.start_and_complete E r.inner
        (moveClassicalToFront r.classical_len peer) with ⟨o, t₀⟩
    rw [h0] at h
    cases o with
    | err e => simp [andThen] at h
    | panic => simp [andThen] at h
    | ok comp₀ =>
      by_cases hlen : r.classical_len ≤ comp₀.pub_key.length
      · rw [andThen_ok] at h
        rw [if_pos hlen] at h
        simp [kxPure] at h
        obtain ⟨hc, ht⟩ := h
        subst ht
        exact ⟨hp, comp₀, rfl, hlen, hc.symm⟩
      · rw [andThen_ok] at h
        rw [if_neg hlen] at h
        simp [kxPanic] at h
  · rw [if_neg hp] at h
    simp [kxPanic] at h

/-! ### Claim C1 -/

/-- C1: assuming the engine's KEM is correct for the session's keypair, the
round trip is correct byte-for-byte: (first conjunct) for any session of any
plain `KxGroup` — in particular `MLKEM768` and the current-layout
`X25519MLKEM768` — created by `start`, a peer's `start_and_complete` against
the session's public key and the session's `complete` on the returned
ciphertext derive equal shared secrets; (second conjunct) the same holds for
sessions of the legacy `ReversingKeyExchange` shim around the hybrid group. -/
theorem claim_C1_roundtrip :
    (∀ (E : Engine) (g : KxGroup) (kx : KeyExchange) (t₁ : List String)
        (comp : CompletedKeyExchange) (t₂ : List String) (c₂ : Nat),
      KxGroup.start E g = (Outcome.ok kx, t₁) →
      KxGroup.start_and_complete E g kx.pub_key = (Outcome.ok comp, t₂) →
      E.pkey_ctx_new kx.priv_key = Except.ok c₂ →
      E.decapsulate_init c₂ = Except.ok () →
      EngineKemCorrect E g.algorithm_name kx.priv_key kx.pub_key →
      (KeyExchange.complete E kx comp.pub_key).1 = Outcome.ok comp.secret)
    ∧
    (∀ (E : Engine) (a : ReversingKeyExchangeActive) (t₁ : List String)
        (comp : CompletedKeyExchange) (t₂ : List String) (c₂ : Nat),
      ReversingKeyExchange.start E Swap.X25519MLKEM768 = (Outcome.ok a, t₁) →
      ReversingKeyExchange.start_and_complete E Swap.X25519MLKEM768 a.pub_key
        = (Outcome.ok comp, t₂) →
      E.pkey_ctx_new a.inner.priv_key = Except.ok c₂ →
      E.decapsulate_init c₂ = Except.ok () →
      EngineKemCorrect E Swap.X25519MLKEM768.inner.algorithm_name
        a.inner.priv_key a.inner.pub_key →
      (ReversingKeyExchangeActive.complete E a comp.pub_key).1 = Outcome.ok comp.secret) := by
  constructor
  · intro E g kx t₁ comp t₂ c₂ hstart hsac hctx hinit hkem
    obtain ⟨k, c, hdec, hcn, hei, henc, -⟩ :=
      start_and_complete_ok_elim E g kx.pub_key comp t₂ hsac
    have hdecap := hkem k c comp.pub_key comp.secret c₂ hdec hcn hei henc hctx hinit
    rw [complete_eval E kx comp.pub_key c₂ comp.secret hctx hinit hdecap]
  · intro E a t₁ comp t₂ c₂ hstart hsac hctx hinit hkem
    obtain ⟨hist, hlen, hpub, hkxg⟩ := swap_start_ok_elim E Swap.X25519MLKEM768 a t₁ hstart
    obtain ⟨hplen, comp₀, hsac₀, hctlen, hcomp⟩ :=
      swap_sac_ok_elim E Swap.X25519MLKEM768 a.pub_key comp t₂ hsac
    rw [hpub, moveClassicalToFront_moveClassicalToEnd _ _ hlen] at hsac₀
    obtain ⟨k, c, hdec, hcn, hei, henc, -⟩ :=
      start_and_complete_ok_elim E Swap.X25519MLKEM768.inner a.inner.pub_key comp₀ _ hsac₀
    have hdecap := hkem k c comp₀.pub_key comp₀.secret c₂ hdec hcn hei henc hctx hinit
    have hinner := complete_eval E a.inner comp₀.pub_key c₂ comp₀.secret hctx hinit hdecap
    unfold ReversingKeyExchangeActive.complete
    subst hcomp
    have hguard : a.kx_group.classical_len
        ≤ (moveClassicalToEnd Swap.X25519MLKEM768.classical_len comp₀.pub_key).length := by
      rw [hkxg, moveClassicalToEnd_length]
      exact hctlen
    rw [if_pos hguard, hkxg, moveClassicalToFront_moveClassicalToEnd _ _ hctlen, hinner]
    rfl

/-- C1 witness: the round trip evaluated on `testEngine`, for a plain
MLKEM768 session and for a legacy-shim hybrid session. -/
theorem claim_C1_roundtrip_witness :
    (KeyExchange.complete testEngine plainSession ct0).1 = Outcome.ok s0
    ∧ (ReversingKeyExchangeActive.complete testEngine swapSession
        (moveClassicalToEnd 32 ct0)).1 = Outcome.ok (swapSecretHalves s0) := by
  have hkem1 : EngineKemCorrect testEngine Kem.MLKEM768.algorithm_name 1 pk0 := by
    intro k c ct s c₂ h1 h2 h3 h4 h5 h6
    simp [testEngine, Kem.MLKEM768] at h1 h2 h4 h5
    subst h1
    subst h5
    simp at h2
    subst h2
    simp at h4
    obtain ⟨hct, hs⟩ := h4
    subst hct
    subst hs
    simp [testEngine]
  have hkem2 : EngineKemCorrect testEngine Swap.X25519MLKEM768.inner.algorithm_name 1 pk0 := by
    intro k c ct s c₂ h1 h2 h3 h4 h5 h6
    simp [testEngine, Swap.X25519MLKEM768] at h1 h2 h4 h5
    subst h1
    subst h5
    simp at h2
    subst h2
    simp at h4
    obtain ⟨hct, hs⟩ := h4
    subst hct
    subst hs
    simp [testEngine]
  constructor
  · exact claim_C1_roundtrip.1 testEngine Kem.MLKEM768 plainSession
      [("new_from_name"), ("keygen_init"), ("keygen"),
       ("get_octet_string_param encoded-pub-key")]
      { group := NamedGroup.MLKEM768, pub_key := ct0, secret := s0 }
      [("from_encoded_public_key"), ("pkey_ctx_new"), ("encapsulate_init"),
       ("encapsulate_to_vec")]
      101 (by decide) (by decide) rfl rfl hkem1
  · exact claim_C1_roundtrip.2 testEngine swapSession
      [("new_from_name"), ("keygen_init"), ("keygen"),
       ("get_octet_string_param encoded-pub-key"),
       ("get_octet_string_param hybrid_classical_pub")]
      { group := NamedGroup.X25519MLKEM768, pub_key := moveClassicalToEnd 32 ct0,
        secret := swapSecretHalves s0 }
      [("from_encoded_public_key"), ("pkey_ctx_new"), ("encapsulate_init"),
       ("encapsulate_to_vec")]
      101 (by decide) (by decide) rfl rfl hkem2

/-! ### Claim C2 -/

/-- C2: direction of every legacy-mode transform.  Write the wire-order peer
key as `pq ++ cl` (post-quantum first, classical last, `|cl| =
classical_len`).  First conjunct (`start_and_complete`): the engine decoder
receives the reassembled `cl ++ pq` — classical first, the engine's own
order; the ciphertext the engine returns, written `cl2 ++ pq2` with `|cl2| =
classical_len`, is returned to the caller as `pq2 ++ cl2` (its first
`classical_len` bytes moved to the end); the engine's secret, written
`sh1 ++ sh2` with equal halves, is returned as `sh2 ++ sh1`.  Second
conjunct (`complete`): the decapsulated secret gets the same half-swap. -/
theorem claim_C2_legacy_transform_directions :
    (∀ (E : Engine) (r : ReversingKeyExchange) (pq cl : Bytes)
        (comp₀ : CompletedKeyExchange) (t₀ : List String) (cl2 pq2 sh1 sh2 : Bytes),
      cl.length = r.classical_len →
      KxGroup.start_and_complete E r.inner (cl ++ pq) = (Outcome.ok comp₀, t₀) →
      comp₀.pub_key = cl2 ++ pq2 →
      cl2.length = r.classical_len →
      comp₀.secret = sh1 ++ sh2 →
      sh1.length = sh2.length →
      ReversingKeyExchange.start_and_complete E r (pq ++ cl)
        = (Outcome.ok { group := comp₀.group, pub_key := pq2 ++ cl2,
                        secret := sh2 ++ sh1 }, t₀))
    ∧
    (∀ (E : Engine) (a : ReversingKeyExchangeActive) (pq cl sh1 sh2 : Bytes)
        (t : List String),
      cl.length = a.kx_group.classical_len →
      KeyExchange.complete E a.inner (cl ++ pq) = (Outcome.ok (sh1 ++ sh2), t) →
      sh1.length = sh2.length →
      ReversingKeyExchangeActive.complete E a (pq ++ cl)
        = (Outcome.ok (sh2 ++ sh1), t)) := by
  constructor
  · intro E r pq cl comp₀ t₀ cl2 pq2 sh1 sh2 hcl hsac hpk hcl2 hsec hsh
    unfold ReversingKeyExchange.start_and_complete
    have hguard : r.classical_len ≤ (pq ++ cl).length := by
      rw [List.length_append]
      omega
    rw [if_pos hguard, moveClassicalToFront_append r.classical_len pq cl hcl, hsac,
      andThen_ok]
    have hguard2 : r.classical_len ≤ comp₀.pub_key.length := by
      rw [hpk, List.length_append]
      omega
    rw [if_pos hguard2]
    have hend : moveClassicalToEnd r.classical_len comp₀.pub_key = pq2 ++ cl2 := by
      rw [hpk]
      exact moveClassicalToEnd_append r.classical_len cl2 pq2 hcl2
    have hswap : swapSecretHalves comp₀.secret = sh2 ++ sh1 := by
      rw [hsec]
      exact swapSecretHalves_append sh1 sh2 hsh
    simp [kxPure, hend, hswap]
  · intro E a pq cl sh1 sh2 t hcl hcomp hsh
    unfold ReversingKeyExchangeActive.complete
    have hguard : a.kx_group.classical_len ≤ (pq ++ cl).length := by
      rw [List.length_append]
      omega
    rw [if_pos hguard, moveClassicalToFront_append a.kx_group.classical_len pq cl hcl,
      hcomp, mapOk_ok, swapSecretHalves_append sh1 sh2 hsh]

/-- C2 witness: the transform directions evaluated on `testEngine` with the
concrete hybrid key `pk0 = [1]*32 ++ [2,2,2,2]`, ciphertext
`ct0 = [3]*32 ++ [4,4]` and secret `s0 = [6,7] ++ [8,9]`. -/
theorem claim_C2_witness :
    ReversingKeyExchange.start_and_complete testEngine Swap.X25519MLKEM768
        ([2, 2, 2, 2] ++ List.replicate 32 1)
      = (Outcome.ok { group := NamedGroup.X25519MLKEM768,
                      pub_key := [4, 4] ++ List.replicate 32 3,
                      secret := [8, 9] ++ [6, 7] },
         [("from_encoded_public_key"), ("pkey_ctx_new"), ("encapsulate_init"),
          ("encapsulate_to_vec")]) := by
  have h := claim_C2_legacy_transform_directions.1 testEngine Swap.X25519MLKEM768
    [2, 2, 2, 2] (List.replicate 32 1)
    { group := NamedGroup.X25519MLKEM768, pub_key := ct0, secret := s0 }
    [("from_encoded_public_key"), ("pkey_ctx_new"), ("encapsulate_init"),
     ("encapsulate_to_vec")]
    (List.replicate 32 3) [4, 4] [6, 7] [8, 9]
    (by decide) (by decide) (by decide) (by decide) (by decide) (by decide)
  exact h

/-! ### Claim C6 -/

/-- C6 counterexample: a session of the hybrid group created through the
legacy shim's `start` (on `testEngine`).  Its group is `X25519MLKEM768` and
the classical public bytes exported at keygen are [9, 9], yet
`hybrid_component()` — which the shim does not override, so rustls's provided
default applies — returns `None`, not `Some((X25519, [9, 9]))` as the claim
states for every hybrid session including shim ones. -/
theorem claim_C6_counterexample :
    (ReversingKeyExchange.start testEngine Swap.X25519MLKEM768).1 = Outcome.ok swapSession
    ∧ ReversingKeyExchangeActive.group swapSession = NamedGroup.X25519MLKEM768
    ∧ swapSession.inner.classical_pub_key = some [9, 9]
    ∧ ReversingKeyExchangeActive.hybrid_component swapSession = Outcome.ok none
    ∧ ReversingKeyExchangeActive.hybrid_component swapSession
        ≠ Outcome.ok (some (NamedGroup.X25519, [9, 9])) := by decide

/-- C6 (amended): for every session the plain `KxGroup::start` creates,
`hybrid_component` returns `Some((X25519, b))` with `b` the classical public
bytes exported at keygen when the group is the hybrid `X25519MLKEM768`, and
`None` when the group is the non-hybrid `MLKEM768`; but for every session of
the legacy `ReversingKeyExchange` shim, `hybrid_component` returns `None`
(the shim does not forward it, so rustls's default applies). -/
theorem claim_C6_hybrid_component :
    (∀ (E : Engine) (g : KxGroup) (kx : KeyExchange) (t : List String),
      KxGroup.start E g = (Outcome.ok kx, t) →
      g.named_group = NamedGroup.X25519MLKEM768 →
      ∃ b, E.get_octet_string_param kx.priv_key ("hybrid_classical_pub") = Except.ok b
        ∧ kx.classical_pub_key = some b
        ∧ kx.hybrid_component = Outcome.ok (some (NamedGroup.X25519, b)))
    ∧
    (∀ (E : Engine) (g : KxGroup) (kx : KeyExchange) (t : List String),
      KxGroup.start E g = (Outcome.ok kx, t) →
      g.named_group = NamedGroup.MLKEM768 →
      kx.hybrid_component = Outcome.ok none)
    ∧
    (∀ a : ReversingKeyExchangeActive,
      ReversingKeyExchangeActive.hybrid_component a = Outcome.ok none) := by
  refine ⟨?_, ?_, fun a => rfl⟩
  · intro E g kx t h hg
    obtain ⟨hml, -, -, hcl⟩ := start_ok_elim E g kx t h
    rcases hcl with ⟨-, b, hb, hsome⟩ | ⟨hng, -⟩
    · refine ⟨b, hb, hsome, ?_⟩
      unfold KeyExchange.hybrid_component
      rw [hml, if_pos hg, hsome]
    · exact absurd hg hng
  · intro E g kx t h hg
    obtain ⟨hml, -, -, hcl⟩ := start_ok_elim E g kx t h
    have hng : ¬ g.named_group = NamedGroup.X25519MLKEM768 := by
      rw [hg]
      intro hc
      cases hc
    unfold KeyExchange.hybrid_component
    rw [hml, if_neg hng]

/-- C6 witness: the amended statement evaluated on `testEngine`: the hybrid
session created by `KxGroup::start` exposes `Some((X25519, [9, 9]))`, the
plain session exposes `None`, and the shim session exposes `None`. -/
theorem claim_C6_witness :
    KeyExchange.hybrid_component hybridSession = Outcome.ok (some (NamedGroup.X25519, [9, 9]))
    ∧ KeyExchange.hybrid_component plainSession = Outcome.ok none
    ∧ ReversingKeyExchangeActive.hybrid_component swapSession = Outcome.ok none := by
  refine ⟨?_, ?_, claim_C6_hybrid_component.2.2 swapSession⟩
  · obtain ⟨b, -, hsome, hcomp⟩ := claim_C6_hybrid_component.1 testEngine
      Kem.X25519MLKEM768 hybridSession
      [("new_from_name"), ("keygen_init"), ("keygen"),
       ("get_octet_string_param encoded-pub-key"),
       ("get_octet_string_param hybrid_classical_pub")]
      (by decide) rfl
    have hb : b = [9, 9] := by
      have : some b = some ([9, 9] : Bytes) := by
        rw [← hsome]
        decide
      exact (Option.some.injEq b [9, 9]).mp this
    rw [← hb]
    exact hcomp
  · exact claim_C6_hybrid_component.2.1 testEngine Kem.MLKEM768 plainSession
      [("new_from_name"), ("keygen_init"), ("keygen"),
       ("get_octet_string_param encoded-pub-key")]
      (by decide) rfl

/-! ### Claims C9 and C10 -/

/-- C9: calling `complete_hybrid_component` on a session whose group is not
`X25519MLKEM768` hits the `unreachable` branch — an abort, with no engine
call made, not a recoverable error value; and under the precondition that
the group IS the hybrid one, that fault branch is never taken (the call
returns a value or an error, never the abort). -/
theorem claim_C9_unreachable_on_non_hybrid :
    ∀ (E : Engine) (kx : KeyExchange) (peer : Bytes),
      (¬ kx.mlkem.named_group = NamedGroup.X25519MLKEM768 →
        (KeyExchange.complete_hybrid_component E kx peer).1 = (Outcome.panic, []))
      ∧ (kx.mlkem.named_group = NamedGroup.X25519MLKEM768 →
        (KeyExchange.complete_hybrid_component E kx peer).1.1 ≠ Outcome.panic) := by
  intro E kx peer
  constructor
  · intro h
    unfold KeyExchange.complete_hybrid_component
    rw [if_neg h]
  · intro h
    unfold KeyExchange.complete_hybrid_component
    rw [if_pos h]
    cases h1 : E.public_key_from_raw_bytes peer idX25519 with
    | error e => simp
    | ok pk =>
      cases h2 : E.get_octet_string_param kx.priv_key ("hybrid_classical_priv") with
      | error e => simp
      | ok pb =>
        cases h3 : E.private_key_from_raw_bytes pb idX25519 with
        | error e => simp [h3]
        | ok sk =>
          cases h4 : E.deriver_new sk with
          | error e => simp [h3, h4]
          | ok d =>
            cases h5 : E.deriver_set_peer d pk with
            | error e => simp [h3, h4, h5]
            | ok u =>
              cases h6 : E.derive_to_vec d with
              | error e => simp [h3, h4, h5, h6]
              | ok s => simp [h3, h4, h5, h6]

/-- C9 witness: on `testEngine`, the call aborts for the plain session and
does not abort for the hybrid session. -/
theorem claim_C9_witness :
    (KeyExchange.complete_hybrid_component testEngine plainSession [7]).1
      = (Outcome.panic, [])
    ∧ (KeyExchange.complete_hybrid_component testEngine hybridSession [7]).1.1
      ≠ Outcome.panic :=
  ⟨(claim_C9_unreachable_on_non_hybrid testEngine plainSession [7]).1 (by decide),
   (claim_C9_unreachable_on_non_hybrid testEngine hybridSession [7]).2 rfl⟩

/-- C10: for every session `KxGroup::start` returns, the `classical_pub_key`
field is `Some` exactly when the session's group is `X25519MLKEM768`, so the
`unwrap()` inside `hybrid_component` never panics on a session produced by
`start`. -/
theorem claim_C10_classical_key_invariant :
    ∀ (E : Engine) (g : KxGroup) (kx : KeyExchange) (t : List String),
      KxGroup.start E g = (Outcome.ok kx, t) →
      (kx.classical_pub_key.isSome ↔ kx.mlkem.named_group = NamedGroup.X25519MLKEM768)
      ∧ kx.hybrid_component ≠ Outcome.panic := by
  intro E g kx t h
  obtain ⟨hml, -, -, hcl⟩ := start_ok_elim E g kx t h
  subst hml
  rcases hcl with ⟨hg, b, -, hsome⟩ | ⟨hng, hnone⟩
  · constructor
    · rw [hsome]
      simp [hg]
    · unfold KeyExchange.hybrid_component
      rw [if_pos hg, hsome]
      intro hc
      cases hc
  · constructor
    · rw [hnone]
      simp [hng]
    · unfold KeyExchange.hybrid_component
      rw [if_neg hng]
      intro hc
      cases hc

/-- C10 witness: the invariant evaluated for the hybrid session `testEngine`
produces. -/
theorem claim_C10_witness :
    (hybridSession.classical_pub_key.isSome
      ↔ hybridSession.mlkem.named_group = NamedGroup.X25519MLKEM768)
    ∧ hybridSession.hybrid_component ≠ Outcome.panic :=
  claim_C10_classical_key_invariant testEngine Kem.X25519MLKEM768 hybridSession
    [("new_from_name"), ("keygen_init"), ("keygen"),
     ("get_octet_string_param encoded-pub-key"),
     ("get_octet_string_param hybrid_classical_pub")]
    (by decide)

/-! ### Claim C8 -/

/-- `KxGroup::start` wraps whichever engine call fails first. -/
theorem startErrWrap_holds (E : Engine) (g : KxGroup) : startErrWrap E g := by
  refine ⟨?_, ?_, ?_, ?_, ?_⟩
  · intro e h1
    simp [KxGroup.start, h1, ecall, andThen, wrapErr]
  · intro c e h1 h2
    simp [KxGroup.start, h1, h2, ecall, andThen, wrapErr]
  · intro c e h1 h2 h3
    simp [KxGroup.start, h1, h2, h3, ecall, andThen, wrapErr]
  · intro c p e h1 h2 h3 h4
    simp [KxGroup.start, h1, h2, h3, h4, ecall, andThen, wrapErr]
  · intro c p pk e h1 h2 h3 h4 hg h5
    simp [KxGroup.start, h1, h2, h3, h4, hg, h5, ecall, andThen, wrapErr]

/-- `KxGroup::start_and_complete` wraps whichever engine call fails first. -/
theorem sacErrWrap_holds (E : Engine) (g : KxGroup) (peer : Bytes) : sacErrWrap E g peer := by
  refine ⟨?_, ?_, ?_, ?_⟩
  · intro e h1
    simp [KxGroup.start_and_complete, h1, ecall, andThen, wrapErr]
  · intro k e h1 h2
    simp [KxGroup.start_and_complete, h1, h2, ecall, andThen, wrapErr]
  · intro k c e h1 h2 h3
    simp [KxGroup.start_and_complete, h1, h2, h3, ecall, andThen, wrapErr]
  · intro k c e h1 h2 h3 h4
    simp [KxGroup.start_and_complete, h1, h2, h3, h4, ecall, andThen, wrapErr]

/-- `KeyExchange::complete` wraps whichever engine call fails first. -/
theorem completeErrWrap_holds (E : Engine) (kx : KeyExchange) (peer : Bytes) :
    completeErrWrap E kx peer := by
  refine ⟨?_, ?_, ?_⟩
  · intro e h1
    simp [KeyExchange.complete, h1, ecall, andThen, wrapErr]
  · intro c e h1 h2
    simp [KeyExchange.complete, h1, h2, ecall, andThen, wrapErr]
  · intro c e h1 h2 h3
    simp [KeyExchange.complete, h1, h2, h3, ecall, andThen, wrapErr]

/-- `KeyExchange::complete_hybrid_component` wraps whichever engine call
fails first. -/
theorem chcErrWrap_holds (E : Engine) (kx : KeyExchange) (peer : Bytes) :
    chcErrWrap E kx peer := by
  refine ⟨?_, ?_, ?_, ?_, ?_, ?_⟩
  · intro e hg h1
    simp [KeyExchange.complete_hybrid_component, hg, h1]
  · intro pk e hg h1 h2
    simp [KeyExchange.complete_hybrid_component, hg, h1, h2]
  · intro pk pb e hg h1 h2 h3
    simp [KeyExchange.complete_hybrid_component, hg, h1, h2, h3]
  · intro pk pb sk e hg h1 h2 h3 h4
    simp [KeyExchange.complete_hybrid_component, hg, h1, h2, h3, h4]
  · intro pk pb sk d e hg h1 h2 h3 h4 h5
    simp [KeyExchange.complete_hybrid_component, hg, h1, h2, h3, h4, h5]
  · intro pk pb sk d e hg h1 h2 h3 h4 h5 h6
    simp [KeyExchange.complete_hybrid_component, hg, h1, h2, h3, h4, h5, h6]

/-- The engine-call sequence `KxGroup::start` makes never repeats a call. -/
theorem start_trace_nodup (E : Engine) (g : KxGroup) : (KxGroup.start E g).2.Nodup := by
  unfold KxGroup.start
  cases h1 : E.new_from_name g.algorithm_name with
  | error e => simp [ecall, andThen, wrapErr, kxPure]
  | ok c =>
    simp only [ecall_ok, andThen_ok]
    cases h2 : E.keygen_init c with
    | error e => simp [ecall, andThen, wrapErr, kxPure]
    | ok u =>
      simp only [ecall_ok, andThen_ok]
      cases h3 : E.keygen c with
      | error e => simp [ecall, andThen, wrapErr, kxPure]
      | ok p =>
        simp only [ecall_ok, andThen_ok]
        cases h4 : E.get_octet_string_param p ("encoded-pub-key") with
        | error e => simp [ecall, andThen, wrapErr, kxPure]
        | ok pk =>
          simp only [ecall_ok, andThen_ok]
          by_cases hg : g.named_group = NamedGroup.X25519MLKEM768
          · rw [if_pos hg]
            cases h5 : E.get_octet_string_param p ("hybrid_classical_pub") with
            | error e => simp [ecall, andThen, wrapErr, kxPure]
            | ok b => simp [ecall, andThen, wrapErr, kxPure]
          · rw [if_neg hg]
            simp [ecall, andThen, wrapErr, kxPure]

/-- The engine-call sequence `KxGroup::start_and_complete` makes never
repeats a call. -/
theorem sac_trace_nodup (E : Engine) (g : KxGroup) (peer : Bytes) :
    (KxGroup.start_and_complete E g peer).2.Nodup := by
  unfold KxGroup.start_and_complete
  cases h1 : E.from_encoded_public_key peer g.algorithm_name with
  | error e => simp [ecall, andThen, wrapErr, kxPure]
  | ok k =>
    simp only [ecall_ok, andThen_ok]
    cases h2 : E.pkey_ctx_new k with
    | error e => simp [ecall, andThen, wrapErr, kxPure]
    | ok c =>
      simp only [ecall_ok, andThen_ok]
      cases h3 : E.encapsulate_init c with
      | error e => simp [ecall, andThen, wrapErr, kxPure]
      | ok u =>
        simp only [ecall_ok, andThen_ok]
        cases h4 : E.encapsulate_to_vec c with
        | error e => simp [ecall, andThen, wrapErr, kxPure]
        | ok pr => simp [ecall, andThen, wrapErr, kxPure]

/-- The engine-call sequence `KeyExchange::complete` makes never repeats a
call. -/
theorem complete_trace_nodup (E : Engine) (kx : KeyExchange) (peer : Bytes) :
    (KeyExchange.complete E kx peer).2.Nodup := by
  unfold KeyExchange.complete
  cases h1 : E.pkey_ctx_new kx.priv_key with
  | error e => simp [ecall, andThen, wrapErr, kxPure]
  | ok c =>
    simp only [ecall_ok, andThen_ok]
    cases h2 : E.decapsulate_init c with
    | error e => simp [ecall, andThen, wrapErr, kxPure]
    | ok u =>
      simp only [ecall_ok, andThen_ok]
      cases h3 : E.decapsulate_to_vec c peer with
      | error e => simp [ecall, andThen, wrapErr, kxPure]
      | ok s => simp [ecall, andThen, wrapErr, kxPure]

/-- The engine-call sequence `KeyExchange::complete_hybrid_component` makes
never repeats a call. -/
theorem chc_trace_nodup (E : Engine) (kx : KeyExchange) (peer : Bytes) :
    (KeyExchange.complete_hybrid_component E kx peer).1.2.Nodup := by
  unfold KeyExchange.complete_hybrid_component
  by_cases hg : kx.mlkem.named_group = NamedGroup.X25519MLKEM768
  · rw [if_pos hg]
    cases h1 : E.public_key_from_raw_bytes peer idX25519 with
    | error e => simp [h1]
    | ok pk =>
      cases h2 : E.get_octet_string_param kx.priv_key ("hybrid_classical_priv") with
      | error e => simp [h1, h2]
      | ok pb =>
        cases h3 : E.private_key_from_raw_bytes pb idX25519 with
        | error e => simp [h1, h2, h3]
        | ok sk =>
          cases h4 : E.deriver_new sk with
          | error e => simp [h1, h2, h3, h4]
          | ok d =>
            cases h5 : E.deriver_set_peer d pk with
            | error e => simp [h1, h2, h3, h4, h5]
            | ok u =>
              cases h6 : E.derive_to_vec d with
              | error e => simp [h1, h2, h3, h4, h5, h6]
              | ok s => simp [h1, h2, h3, h4, h5, h6]
  · rw [if_neg hg]
    simp

/-- C8: error wrapping and no retries — for each of the four session
operations of src/kem.rs, whichever engine call fails first, the operation
returns exactly one generic key-exchange error string carrying that engine
call's diagnostic appended to the operation's fixed prefix (and no partial
result), the call sequence stops at the failure, and no operation's recorded
engine-call sequence ever contains the same call twice. -/
theorem claim_C8_error_wrapping :
    ∀ (E : Engine) (g : KxGroup) (kx : KeyExchange) (peer : Bytes),
      startErrWrap E g ∧ sacErrWrap E g peer ∧ completeErrWrap E kx peer
      ∧ chcErrWrap E kx peer
      ∧ (KxGroup.start E g).2.Nodup
      ∧ (KxGroup.start_and_complete E g peer).2.Nodup
      ∧ (KeyExchange.complete E kx peer).2.Nodup
      ∧ (KeyExchange.complete_hybrid_component E kx peer).1.2.Nodup :=
  fun E g kx peer =>
    ⟨startErrWrap_holds E g, sacErrWrap_holds E g peer, completeErrWrap_holds E kx peer,
     chcErrWrap_holds E kx peer, start_trace_nodup E g, sac_trace_nodup E g peer,
     complete_trace_nodup E kx peer, chc_trace_nodup E kx peer⟩

/-- C8 witness: on `failEngine` (whose keypair generation fails with
diagnostic "boom"), `start` returns exactly the wrapped generic error and a
one-call sequence. -/
theorem claim_C8_witness :
    KxGroup.start failEngine Kem.MLKEM768
      = (Outcome.err ("OpenSSL keygen error: " ++ "boom"), [("new_from_name")]) :=
  (claim_C8_error_wrapping failEngine Kem.MLKEM768 plainSession []).1.1 ("boom") rfl
